import Mathlib

/-!
Verification of the PIL io plugin (skimage/io/_plugins/pil_plugin.py).

The development shallowly embeds the module: numpy arrays become `NDArray`
(a shape list, a numpy dtype kind character, an element byte width and a flat
row-major data list), PIL images become `TaggedImage` (a mode string, the PIL
(width, height) size sequence, flat pixel data, an optional palette, the used
index extrema and a flag for an open underlying file handle).  Python
exceptions become `Except Err`.  External collaborators (the PIL raw codec,
the numpy conversion of a PIL image, the skimage numeric-range policies) are
modelled from the specification and marked as such; everything else is a
direct translation of the source.
-/

/-- Python exceptions raised by the module (or propagated through it). -/
inductive Err where
  /-- "Invalid shape for image array: %s" (the squeezed shape is reported). -/
  | invalidShape (shape : List Nat)
  /-- "Invalid number of channels in image array." -/
  | invalidChannels
  /-- numpy: calling max or min on a zero-size array raises a ValueError. -/
  | zeroSizeReduction
  /-- numpy: assigning an incompatible shape to an array raises a ValueError. -/
  | reshapeMismatch
  /-- np.asarray(None).reshape((256, 3)) raises when getpalette returned None. -/
  | missingPalette
  /-- reshape((256, 3)) raises unless the palette holds exactly 768 entries. -/
  | badPaletteLength
  /-- The assert statement at the head of _palette_is_grayscale. -/
  | assertionFailed
  /-- imread: ValueError [Could not load "fname" ... see documentation at: site]. -/
  | unreadable (fname : String) (site : String)
deriving DecidableEq, Repr

/-- An array element: an integer-kind value or a floating-point value
(floating point is modelled exactly, as a rational). -/
inductive Scalar where
  | i : Int → Scalar
  | f : ℚ → Scalar
deriving DecidableEq, Repr

/-- A numpy array: shape, dtype kind character as numpy reports it
(one of the characters u, i, f), element byte width, and the flat data
buffer in row-major (C) order. -/
structure NDArray where
  shape : List Nat
  kind : Char
  itemsize : Nat
  data : List Scalar
deriving DecidableEq, Repr

/-- A PIL image as the module sees it: the pixel mode tag, the PIL size
sequence (width, height), the flat pixel values (channel samples interleaved
for multi-channel modes), the palette as getpalette returns it (a flat list
of 768 channel values, or None), the getextrema pair of the least and
greatest pixel value (used as the palette index range for palette images)
and whether the object holds an open underlying file handle.  The final
field records the raw codec tag that fromstring consumed when
ndarray_to_pil packed the image (the source variable named mode); images
opened from files leave it empty. -/
structure TaggedImage where
  mode : String
  size : List Nat
  data : List Int
  palette : Option (List Int)
  extrema : Nat × Nat
  fp : Bool
  rawmode : String
deriving DecidableEq, Repr

/-- Python: s.startswith(p), on the character sequences of the strings. -/
def strStarts (s p : String) : Bool := s.data.take p.data.length = p.data

/-- Python: s.endswith(p), on the character sequences of the strings. -/
def strEnds (s p : String) : Bool := s.data.drop (s.data.length - p.data.length) = p.data

/-- Python: c in s, for a single character. -/
def strHasChar (s : String) (c : Char) : Bool := s.data.contains c

/-- The numeric value of a scalar (used by comparisons such as arr.max). -/
def scalarVal : Scalar → ℚ
  | .i v => (v : ℚ)
  | .f q => q

/-- The integer reading of a scalar.  Every code path of the module converts a
floating array to an integer kind before any byte-level step, so the floor on
the floating case is never exercised by the packing paths. -/
def scalarInt : Scalar → Int
  | .i v => v
  | .f q => ⌊q⌋

/-- np.max over the flat data, None on a zero-size array. -/
def foldMax : List ℚ → Option ℚ
  | [] => none
  | x :: xs =>
    match foldMax xs with
    | none => some x
    | some m => some (max x m)

/-- np.min over the flat data, None on a zero-size array. -/
def foldMin : List ℚ → Option ℚ
  | [] => none
  | x :: xs =>
    match foldMin xs with
    | none => some x
    | some m => some (min x m)

/-- arr.max() as a partial operation (numpy raises on zero-size input). -/
def arrMax (a : NDArray) : Option ℚ := foldMax (a.data.map scalarVal)

/-- arr.min() as a partial operation (numpy raises on zero-size input). -/
def arrMin (a : NDArray) : Option ℚ := foldMin (a.data.map scalarVal)

/-- np.squeeze removes every axis of length one. -/
def squeezeShape (l : List Nat) : List Nat := l.filter (fun d => d != 1)

/-- np.asarray(arr).squeeze(): the data is untouched, axes of length one go. -/
def squeeze (a : NDArray) : NDArray := { a with shape := squeezeShape a.shape }

/-- arr.astype(np.uint8): values wrap modulo 2^8. -/
def astype_u8 (a : NDArray) : NDArray :=
  { a with
    kind := 'u'
    itemsize := 1
    data := a.data.map fun s => .i (Int.emod (scalarInt s) 256) }

/-- arr.astype(np.uint16): values wrap modulo 2^16. -/
def astype_u16 (a : NDArray) : NDArray :=
  { a with
    kind := 'u'
    itemsize := 2
    data := a.data.map fun s => .i (Int.emod (scalarInt s) 65536) }

/-- Modelled from the spec: the collaborator numeric-range policy
toUnsignedShort (img_as_uint of skimage.util, which is outside this module).
Floating values, assumed to lie in [0, 1], are rescaled to the unsigned
16-bit range. -/
def img_as_uint (a : NDArray) : NDArray :=
  { a with
    kind := 'u'
    itemsize := 2
    data := a.data.map fun s => .i (min 65535 (max 0 ⌊scalarVal s * 65535 + 1/2⌋)) }

/-- Modelled from the spec: the collaborator numeric-range policy
toUnsignedByte (img_as_ubyte of skimage.util, which is outside this module).
Values are rescaled and clamped into the unsigned 8-bit range; no claim
depends on the exact scaling of wide integer inputs. -/
def img_as_ubyte (a : NDArray) : NDArray :=
  { a with
    kind := 'u'
    itemsize := 1
    data := a.data.map fun s =>
      match s with
      | .f q => .i (min 255 (max 0 ⌊q * 255 + 1/2⌋))
      | .i v => .i (min 255 (max 0 v)) }

/-- Modelled from the spec: the collaborator numeric-range policy toSignedInt
(img_as_int of skimage.util, which is outside this module).  Values are
clamped into the signed 32-bit range; no claim depends on the exact scaling. -/
def img_as_int (a : NDArray) : NDArray :=
  { a with
    kind := 'i'
    itemsize := 4
    data := a.data.map fun s =>
      match s with
      | .f q => .i (min 2147483647 (max (-2147483648) ⌊q * 2147483647 + 1/2⌋))
      | .i v => .i (min 2147483647 (max (-2147483648) v)) }

/-- The little-endian bytes of a value stored as an unsigned 8-bit element. -/
def bytesU8 (v : Int) : List Nat := [(Int.emod v 256).toNat]

/-- The little-endian bytes of a value stored as an unsigned 16-bit element. -/
def bytesU16LE (v : Int) : List Nat :=
  let n := (Int.emod v 65536).toNat
  [n % 256, n / 256]

/-- The big-endian bytes of a value stored as an unsigned 16-bit element. -/
def bytesU16BE (v : Int) : List Nat :=
  let n := (Int.emod v 65536).toNat
  [n / 256, n % 256]

/-- The little-endian bytes of a value stored as a signed 32-bit element. -/
def bytesI32LE (v : Int) : List Nat :=
  let n := (Int.emod v 4294967296).toNat
  [n % 256, n / 256 % 256, n / 65536 % 256, n / 16777216]

/-- Reading a byte buffer as little-endian unsigned 16-bit integers
(np.fromstring with a dtype of less-than-u2); the buffer length is even on
every call site, since the serialized 16-bit data has two bytes per value. -/
def decodeU16LE : List Nat → List Int
  | b0 :: b1 :: rest => ((b0 : Int) + 256 * (b1 : Int)) :: decodeU16LE rest
  | _ => []

/-- Reading a byte buffer as big-endian unsigned 16-bit integers
(np.fromstring with a dtype of greater-than-u2). -/
def decodeU16BE : List Nat → List Int
  | b0 :: b1 :: rest => (256 * (b0 : Int) + (b1 : Int)) :: decodeU16BE rest
  | _ => []

/-- Reading a byte buffer as little-endian signed 32-bit integers. -/
def decodeI32LE : List Nat → List Int
  | b0 :: b1 :: b2 :: b3 :: rest =>
    let n : Int := (b0 : Int) + 256 * (b1 : Int) + 65536 * (b2 : Int) + 16777216 * (b3 : Int)
    (if n < 2147483648 then n else n - 4294967296) :: decodeI32LE rest
  | _ => []

/-- The byte layout of one element of the given dtype (little-endian, as
numpy serializes on the common platforms).  The module serializes an array
only after converting it, so only the three layouts produced by those
conversions occur. -/
def encodeBytes (kind : Char) (itemsize : Nat) : Int → List Nat :=
  if kind = 'u' ∧ itemsize = 1 then bytesU8
  else if kind = 'u' ∧ itemsize = 2 then bytesU16LE
  else if kind = 'i' ∧ itemsize = 4 then bytesI32LE
  else bytesU8

/-- numpy tostring: the raw bytes of the array in row-major order. -/
def tostring (a : NDArray) : List Nat :=
  a.data.flatMap fun s => encodeBytes a.kind a.itemsize (scalarInt s)

/-- Modelled from the spec: the raw codec of the tagged format (PIL
fromstring with a raw decoder tag): the PixelMode fully determines the byte
layout, one byte per channel sample for the byte modes, two little-endian
bytes for the 16-bit integer mode, four little-endian bytes for the signed
32-bit mode. -/
def rawDecode (rawmode : String) (bytes : List Nat) : List Int :=
  if rawmode = "I;16" then decodeU16LE bytes
  else if rawmode = "I;16B" then decodeU16BE bytes
  else if rawmode = "I" then decodeI32LE bytes
  else bytes.map Int.ofNat

/-- Modelled from the spec: the raw-byte access of a 16-bit tagged image (PIL
tostring on a mode of the I;16 family): two bytes per pixel, big-endian
exactly when the mode tag declares big-endian and little-endian otherwise. -/
def imTostring (im : TaggedImage) : List Nat :=
  im.data.flatMap fun v =>
    if strEnds im.mode "B" then bytesU16BE v else bytesU16LE v

/-- np.diff along the last axis of an n-by-3 table: per row, the pair of
channel differences [g - r, b - g]. -/
def npDiffRows (rows : List (Int × Int × Int)) : List Int :=
  rows.flatMap fun (r, g, b) => [g - r, b - g]

/-- The absolute tolerance of np.allclose (rtol contributes nothing against
an expected value of zero). -/
def npAtol : ℚ := 1 / 100000000

/-- np.allclose(xs, 0): every entry is within the floating tolerance of 0. -/
def allcloseZero (xs : List Int) : Bool := xs.all fun d => decide (|(d : ℚ)| ≤ npAtol)

/-- The 256 palette rows, as getpalette().reshape((256, 3)) produces them. -/
def paletteRows : List Int → List (Int × Int × Int)
  | r :: g :: b :: rest => (r, g, b) :: paletteRows rest
  | _ => []

/-- _palette_is_grayscale: asserts palette mode, reads the palette as a
256-by-3 table, slices out the used index range [start, stop) reported by
getextrema, and tests whether every channel difference in the slice is close
to zero. -/
def _palette_is_grayscale (pil_image : TaggedImage) : Except Err Bool :=
  if pil_image.mode ≠ "P" then Except.error Err.assertionFailed
  else
    match pil_image.palette with
    | none => Except.error Err.missingPalette
    | some pal =>
      if pal.length ≠ 768 then Except.error Err.badPaletteLength
      else
        let start := pil_image.extrema.1
        let stop := pil_image.extrema.2
        let valid_palette := ((paletteRows pal).take stop).drop start
        Except.ok (allcloseZero (npDiffRows valid_palette))

/-- Modelled from the spec: the PIL convert collaborator (spec 4.2, rules 1,
2 and 4): palette expansion to RGB, palette or bilevel reinterpretation as
8-bit luminance, alpha normalization to RGBA.  Beyond the mode retag and the
palette expansion, per-pixel details are specific to the codec library and no claim
depends on them. -/
def convertMode (im : TaggedImage) (target : String) : TaggedImage :=
  if target = "RGB" then
    let pal := im.palette.getD (List.replicate 768 0)
    { im with
      mode := "RGB"
      data := im.data.flatMap fun idx =>
        [pal.getD (3 * idx.toNat) 0, pal.getD (3 * idx.toNat + 1) 0,
          pal.getD (3 * idx.toNat + 2) 0] }
  else if target = "L" then
    if im.mode = "P" then
      let pal := im.palette.getD (List.replicate 768 0)
      { im with
        mode := "L"
        data := im.data.map fun idx => pal.getD (3 * idx.toNat) 0 }
    else if im.mode = "1" then
      { im with
        mode := "L"
        data := im.data.map fun b => if b = 0 then 0 else 255 }
    else { im with mode := "L" }
  else { im with mode := target }

/-- Modelled from the spec: the generic numeric cast of a tagged image to an
array (np.array applied to a PIL image): the shape is the reversed size, with
a trailing channel axis for the multi-channel modes, and the element kind is
the natural kind of the mode (spec 4.2, rule 5). -/
def npArrayOfImage (im : TaggedImage) : NDArray :=
  if im.mode = "RGB" then ⟨im.size.reverse ++ [3], 'u', 1, im.data.map Scalar.i⟩
  else if im.mode = "RGBA" then ⟨im.size.reverse ++ [4], 'u', 1, im.data.map Scalar.i⟩
  else if im.mode = "I" then ⟨im.size.reverse, 'i', 4, im.data.map Scalar.i⟩
  else ⟨im.size.reverse, 'u', 1, im.data.map Scalar.i⟩

/-- The dtype argument a caller may pass down to the final numeric cast. -/
inductive Dtype where
  | u8 | u16 | i32 | f64
deriving DecidableEq, Repr

/-- Casting one element to a requested dtype (numpy astype semantics: wrap
for the unsigned kinds, wrap into the signed range for i32). -/
def castScalar : Dtype → Scalar → Scalar
  | .u8, s => .i (Int.emod (scalarInt s) 256)
  | .u16, s => .i (Int.emod (scalarInt s) 65536)
  | .i32, s =>
    let n := Int.emod (scalarInt s) 4294967296
    .i (if n < 2147483648 then n else n - 4294967296)
  | .f64, s => .f (scalarVal s)

/-- The numpy kind character of a dtype. -/
def dtypeKind : Dtype → Char
  | .u8 => 'u'
  | .u16 => 'u'
  | .i32 => 'i'
  | .f64 => 'f'

/-- The element byte width of a dtype. -/
def dtypeSize : Dtype → Nat
  | .u8 => 1
  | .u16 => 2
  | .i32 => 4
  | .f64 => 8

/-- np.array(x, dtype=dtype) on an array: None keeps the natural dtype,
otherwise every element is cast. -/
def castArray : Option Dtype → NDArray → NDArray
  | none, a => a
  | some dt, a =>
    { shape := a.shape
      kind := dtypeKind dt
      itemsize := dtypeSize dt
      data := a.data.map (castScalar dt) }

/-- The mode-normalization chain of pil_to_ndarray (the if/elif ladder of the
source): palette images are expanded after the grayscale test, bilevel images
become luminance, images of the 16-bit family are read from their raw bytes
with the declared byte order and reshaped to the reversed size, alpha-bearing
modes become RGBA, anything else flows through unchanged.  The result is
either a (possibly converted) image or an already materialized array,
together with the dtype the final numeric cast will use (the 16-bit branch
overwrites the dtype the caller passed). -/
def pil_branch (im : TaggedImage) (dtype : Option Dtype) :
    Except Err ((TaggedImage ⊕ NDArray) × Option Dtype) :=
  if im.mode = "P" then
    match _palette_is_grayscale im with
    | .error e => Except.error e
    | .ok true => Except.ok (.inl (convertMode im "L"), dtype)
    | .ok false => Except.ok (.inl (convertMode im "RGB"), dtype)
  else if im.mode = "1" then
    Except.ok (.inl (convertMode im "L"), dtype)
  else if strStarts im.mode "I;16" then
    let vals :=
      if strEnds im.mode "B" then decodeU16BE (imTostring im)
      else decodeU16LE (imTostring im)
    if vals.length = im.size.prod then
      Except.ok (.inr ⟨im.size.reverse, 'u', 2, vals.map Scalar.i⟩, some Dtype.u16)
    else Except.error Err.reshapeMismatch
  else if strHasChar im.mode 'A' then
    Except.ok (.inl (convertMode im "RGBA"), dtype)
  else
    Except.ok (.inl im, dtype)

/-- pil_to_ndarray: records whether a file handle is open, normalizes the
mode, materializes the numeric array, and closes the handle (the second
component reports whether the close ran; the close statement sits after the
conversion, so an exceptional exit skips it). -/
def pil_to_ndarray (im : TaggedImage) (dtype : Option Dtype) :
    Except Err NDArray × Bool :=
  let fp := im.fp
  match pil_branch im dtype with
  | .error e => (Except.error e, false)
  | .ok (x, dt) =>
    let arr := castArray dt (match x with
      | .inl img => npArrayOfImage img
      | .inr a => a)
    (Except.ok arr, fp)

/-- The ordered mode-selection rule table of ndarray_to_pil (the elif ladder
of the source, evaluated on the already squeezed and validated array): 3-D
arrays take the byte RGB or RGBA modes, 2-D floating arrays take the 16-bit
integer storage mode over the unsigned-16-bit policy, 2-D integer arrays take
the 8-bit luminance mode when every value fits in [0, 256), the 16-bit mode
when every value fits in [0, 65536), and the signed 32-bit mode otherwise
(arr.max on a zero-size array raises).  The result carries the converted
array, the storage mode handed to fromstring and the base mode handed to
Image.new. -/
def modeSelect (arr : NDArray) : Except Err (NDArray × String × String) :=
  if arr.shape.length = 3 then
    let m := if arr.shape.getLast? = some 3 then "RGB" else "RGBA"
    Except.ok (img_as_ubyte arr, m, m)
  else if arr.kind = 'f' then
    Except.ok (img_as_uint arr, "I;16", "I")
  else
    match arrMax arr, arrMin arr with
    | some mx, some mn =>
      if mx < 256 ∧ 0 ≤ mn then Except.ok (astype_u8 arr, "L", "L")
      else if mx < 65536 ∧ 0 ≤ mn then Except.ok (astype_u16 arr, "I;16", "I")
      else Except.ok (img_as_int arr, "I", "I")
    | _, _ => Except.error Err.zeroSizeReduction

/-- The packing tail of ndarray_to_pil: Image.new of the base mode on
arr.T.shape (the reversed shape), then fromstring of arr.tostring through the
raw codec tag of the storage mode. -/
def packImage (a : NDArray) (mode mode_base : String) : TaggedImage :=
  { mode := mode_base
    size := a.shape.reverse
    data := rawDecode mode (tostring a)
    palette := none
    extrema := (0, 0)
    fp := false
    rawmode := mode }

/-- ndarray_to_pil: squeezes the input, validates the shape, selects the
pixel mode by the ordered rule table, converts the values, and packs the raw
bytes into a fresh image of the base mode whose size is the reversed shape.
The format hint is tested against the two tiff spellings by the source and
then dropped (the branch body is pass). -/
def ndarray_to_pil (arr0 : NDArray) (format_str : Option String) :
    Except Err TaggedImage :=
  let arr := squeeze arr0
  if ¬(arr.shape.length = 2 ∨ arr.shape.length = 3) then
    Except.error (Err.invalidShape arr.shape)
  else if arr.shape.length = 3 ∧
      ¬(arr.shape.getLast? = some 3 ∨ arr.shape.getLast? = some 4) then
    Except.error Err.invalidChannels
  else
    (modeSelect arr).map fun (a, mode, mode_base) => packImage a mode mode_base

/-- The remediation site quoted by the imread error message. -/
def pilSite : String :=
  "http://pillow.readthedocs.org/en/latest/installation.html#external-libraries"

/-- imread: opens the file through the codec collaborator (the opened image
and whether its pixel access raises are parameters standing for that
collaborator), re-raises a pixel-access failure as the user-facing ValueError
with the documentation hint, and otherwise delegates to pil_to_ndarray. -/
def imread (fname : String) (im : TaggedImage) (pixelAccessFails : Bool)
    (dtype : Option Dtype) : Except Err NDArray × Bool :=
  if pixelAccessFails then (Except.error (Err.unreadable fname pilSite), false)
  else pil_to_ndarray im dtype

/-- imsave: defaults the format hint to PNG for non-string destinations,
builds the image with ndarray_to_pil (the source passes format_str=None
there), and hands the image and the final hint to the codec save routine
(the returned pair stands for that call). -/
def imsave (fnameIsString : Bool) (arr : NDArray) (format_str : Option String) :
    Except Err (TaggedImage × Option String) :=
  let fs := if ¬fnameIsString ∧ format_str = none then some "PNG" else format_str
  (ndarray_to_pil arr none).map fun img => (img, fs)

/-- The round trip of the testable properties: pack an array into a tagged
image and read it back (both directions with a default dtype). -/
def roundTrip (a : NDArray) : Except Err NDArray :=
  (ndarray_to_pil a none).bind fun img => (pil_to_ndarray img none).1

/-- Whether a conversion result is a success. -/
def exceptIsOk {α : Type} : Except Err α → Bool
  | .ok _ => true
  | .error _ => false

/-- Whether a conversion failed with the InvalidShape condition of the spec
(either of the two shape-validation errors of ndarray_to_pil). -/
def isInvalidShapeError : Except Err TaggedImage → Bool
  | .error (.invalidShape _) => true
  | .error .invalidChannels => true
  | _ => false

/-- Follows the claim wording (with the squeeze corrected to remove all
length-1 axes): a squeezed shape the validation of ndarray_to_pil rejects. -/
def specBadShape (l : List Nat) : Prop :=
  ¬(l.length = 2 ∨ l.length = 3) ∨
    (l.length = 3 ∧ ¬(l.getLast? = some 3 ∨ l.getLast? = some 4))

instance (l : List Nat) : Decidable (specBadShape l) := by
  unfold specBadShape; infer_instance

/-! ## Helper lemmas -/

theorem intAbs_le_atol_iff (d : Int) : |(d : ℚ)| ≤ npAtol ↔ d = 0 := by
  constructor
  · intro hle
    by_contra hd
    have h1 : (1 : Int) ≤ |d| := Int.one_le_abs (by omega)
    have h1q : (1 : ℚ) ≤ |(d : ℚ)| := by exact_mod_cast h1
    have : npAtol < 1 := by norm_num [npAtol]
    linarith
  · rintro rfl
    norm_num [npAtol]

theorem allcloseZero_iff (xs : List Int) : allcloseZero xs = true ↔ ∀ d ∈ xs, d = 0 := by
  simp [allcloseZero, List.all_eq_true, intAbs_le_atol_iff]

theorem npDiffRows_zero_iff (rows : List (Int × Int × Int)) :
    (∀ d ∈ npDiffRows rows, d = 0) ↔
      ∀ row ∈ rows, row.1 = row.2.1 ∧ row.2.1 = row.2.2 := by
  constructor
  · intro hall row hrow
    have h1 : row.2.1 - row.1 = 0 := by
      apply hall
      simp only [npDiffRows, List.mem_flatMap]
      exact ⟨row, hrow, by rcases row with ⟨r, g, b⟩; simp⟩
    have h2 : row.2.2 - row.2.1 = 0 := by
      apply hall
      simp only [npDiffRows, List.mem_flatMap]
      exact ⟨row, hrow, by rcases row with ⟨r, g, b⟩; simp⟩
    omega
  · intro hall d hd
    simp only [npDiffRows, List.mem_flatMap] at hd
    obtain ⟨row, hrow, hd⟩ := hd
    rcases row with ⟨r, g, b⟩
    have := hall _ hrow
    simp at hd this
    omega

theorem paletteRows_take : ∀ (n : Nat) (l : List Int),
    (paletteRows l).take n = paletteRows (l.take (3 * n))
  | 0, l => by simp [paletteRows]
  | n + 1, [] => by simp [paletteRows]
  | n + 1, [a] => by simp [paletteRows]
  | n + 1, [a, b] => by simp [paletteRows]
  | n + 1, a :: b :: c :: rest => by
    have ih := paletteRows_take n rest
    have h3 : 3 * (n + 1) = 3 * n + 1 + 1 + 1 := by ring
    simp only [paletteRows, List.take_succ_cons, h3, ih]
    rfl

theorem foldMax_eq_none_iff (l : List ℚ) : foldMax l = none ↔ l = [] := by
  cases l with
  | nil => simp [foldMax]
  | cons x xs =>
    simp only [foldMax]
    cases foldMax xs <;> simp

theorem foldMax_spec : ∀ {l : List ℚ} {m : ℚ}, foldMax l = some m →
    m ∈ l ∧ ∀ x ∈ l, x ≤ m := by
  intro l
  induction l with
  | nil => intro m h; simp [foldMax] at h
  | cons x xs ih =>
    intro m h
    simp only [foldMax] at h
    cases hx : foldMax xs with
    | none =>
      rw [hx] at h
      have hnil : xs = [] := (foldMax_eq_none_iff xs).mp hx
      subst hnil
      have hm : m = x := by simpa using h.symm
      subst hm
      simp
    | some m0 =>
      rw [hx] at h
      have hm : m = max x m0 := by simpa using h.symm
      subst hm
      obtain ⟨hmem, hle⟩ := ih hx
      refine ⟨?_, ?_⟩
      · rcases le_total x m0 with hc | hc
        · rw [max_eq_right hc]; exact List.mem_cons_of_mem _ hmem
        · rw [max_eq_left hc]; exact List.mem_cons_self _ _
      · intro y hy
        rcases List.mem_cons.mp hy with rfl | hy
        · exact le_max_left _ _
        · exact le_trans (hle y hy) (le_max_right _ _)

theorem foldMin_eq_none_iff (l : List ℚ) : foldMin l = none ↔ l = [] := by
  cases l with
  | nil => simp [foldMin]
  | cons x xs =>
    simp only [foldMin]
    cases foldMin xs <;> simp

theorem foldMin_spec : ∀ {l : List ℚ} {m : ℚ}, foldMin l = some m →
    m ∈ l ∧ ∀ x ∈ l, m ≤ x := by
  intro l
  induction l with
  | nil => intro m h; simp [foldMin] at h
  | cons x xs ih =>
    intro m h
    simp only [foldMin] at h
    cases hx : foldMin xs with
    | none =>
      rw [hx] at h
      have hnil : xs = [] := (foldMin_eq_none_iff xs).mp hx
      subst hnil
      have hm : m = x := by simpa using h.symm
      subst hm
      simp
    | some m0 =>
      rw [hx] at h
      have hm : m = min x m0 := by simpa using h.symm
      subst hm
      obtain ⟨hmem, hle⟩ := ih hx
      refine ⟨?_, ?_⟩
      · rcases le_total x m0 with hc | hc
        · rw [min_eq_left hc]; exact List.mem_cons_self _ _
        · rw [min_eq_right hc]; exact List.mem_cons_of_mem _ hmem
      · intro y hy
        rcases List.mem_cons.mp hy with rfl | hy
        · exact min_le_left _ _
        · exact le_trans (min_le_right _ _) (hle y hy)

theorem decodeU16LE_flatMap : ∀ (vs : List Int),
    decodeU16LE (vs.flatMap bytesU16LE) = vs.map fun v => Int.emod v 65536
  | [] => rfl
  | v :: rest => by
    have ih := decodeU16LE_flatMap rest
    have hnn : 0 ≤ Int.emod v 65536 := Int.emod_nonneg v (by norm_num)
    have hkey : ((((Int.emod v 65536).toNat % 256 : Nat) : Int) +
        256 * (((Int.emod v 65536).toNat / 256 : Nat) : Int)) = Int.emod v 65536 := by
      omega
    show decodeU16LE ((Int.emod v 65536).toNat % 256 :: (Int.emod v 65536).toNat / 256 ::
        rest.flatMap bytesU16LE) = Int.emod v 65536 :: rest.map fun v => Int.emod v 65536
    simp only [decodeU16LE]
    rw [ih, hkey]

theorem decodeU16BE_flatMap : ∀ (vs : List Int),
    decodeU16BE (vs.flatMap bytesU16BE) = vs.map fun v => Int.emod v 65536
  | [] => rfl
  | v :: rest => by
    have ih := decodeU16BE_flatMap rest
    have hnn : 0 ≤ Int.emod v 65536 := Int.emod_nonneg v (by norm_num)
    have hkey : (256 * (((Int.emod v 65536).toNat / 256 : Nat) : Int) +
        (((Int.emod v 65536).toNat % 256 : Nat) : Int)) = Int.emod v 65536 := by
      omega
    show decodeU16BE ((Int.emod v 65536).toNat / 256 :: (Int.emod v 65536).toNat % 256 ::
        rest.flatMap bytesU16BE) = Int.emod v 65536 :: rest.map fun v => Int.emod v 65536
    simp only [decodeU16BE]
    rw [ih, hkey]

theorem mapOfNat_flatMapU8 : ∀ (vs : List Int),
    (vs.flatMap bytesU8).map Int.ofNat = vs.map fun v => Int.emod v 256
  | [] => rfl
  | v :: rest => by
    have ih := mapOfNat_flatMapU8 rest
    have hnn : 0 ≤ Int.emod v 256 := Int.emod_nonneg v (by norm_num)
    have hkey : Int.ofNat (Int.emod v 256).toNat = Int.emod v 256 := by
      simpa using Int.toNat_of_nonneg hnn
    show Int.ofNat (Int.emod v 256).toNat :: (rest.flatMap bytesU8).map Int.ofNat =
      Int.emod v 256 :: rest.map fun v => Int.emod v 256
    rw [ih, hkey]

theorem palette_gray_run (im : TaggedImage) (pal : List Int) (s t : Nat)
    (hm : im.mode = "P") (hp : im.palette = some pal) (hl : pal.length = 768)
    (he : im.extrema = (s, t)) :
    _palette_is_grayscale im =
      Except.ok (allcloseZero (npDiffRows (((paletteRows pal).take t).drop s))) := by
  unfold _palette_is_grayscale
  rw [hm, hp, he]
  simp [hl]

/-- Claim C4: _palette_is_grayscale returns true exactly when every palette
row in the used sub-range [start, stop) has its three channels equal (for the
integer-valued palettes getpalette delivers, the floating np.allclose
tolerance of 1e-8 collapses to exact equality), and in particular it returns
true, rather than failing, when start = stop makes the sub-range empty. -/
theorem palette_grayscale_iff (im : TaggedImage) (pal : List Int) (s t : Nat)
    (hm : im.mode = "P") (hp : im.palette = some pal) (hl : pal.length = 768)
    (he : im.extrema = (s, t)) :
    (_palette_is_grayscale im = Except.ok true ↔
      ∀ row ∈ ((paletteRows pal).take t).drop s,
        row.1 = row.2.1 ∧ row.2.1 = row.2.2) ∧
    (s = t → _palette_is_grayscale im = Except.ok true) := by
  have hrun := palette_gray_run im pal s t hm hp hl he
  constructor
  · rw [hrun]
    constructor
    · intro hok
      have hall : allcloseZero (npDiffRows (((paletteRows pal).take t).drop s)) = true := by
        simpa using hok
      rw [allcloseZero_iff] at hall
      exact (npDiffRows_zero_iff _).mp hall
    · intro hrows
      have hall := (allcloseZero_iff _).mpr ((npDiffRows_zero_iff _).mpr hrows)
      rw [hall]
  · intro hst
    subst hst
    have hempty : ((paletteRows pal).take s).drop s = [] := by
      apply List.drop_eq_nil_of_le
      simp [List.length_take]
    rw [hrun, hempty]
    rfl

/-- Witness for C4 at a concrete palette-mode image: a fully gray palette
with used range [10, 12). -/
theorem palette_grayscale_iff_witness :
    ((_palette_is_grayscale ⟨"P", [2, 1], [10, 11], some (List.replicate 768 7),
        (10, 12), false, ""⟩ = Except.ok true ↔
      ∀ row ∈ ((paletteRows (List.replicate 768 7)).take 12).drop 10,
        row.1 = row.2.1 ∧ row.2.1 = row.2.2) ∧
    (10 = 12 → _palette_is_grayscale ⟨"P", [2, 1], [10, 11],
        some (List.replicate 768 7), (10, 12), false, ""⟩ = Except.ok true)) :=
  palette_grayscale_iff _ (List.replicate 768 7) 10 12 rfl rfl
    (by rw [List.length_replicate]) rfl

/-- Claim C10: the verdict of _palette_is_grayscale never depends on a
palette row at an index at or beyond the reported maximum used index: the
slice palette[start:stop] excludes row stop itself, so two palettes that
agree strictly below row stop (the first 3 * stop flat entries) are judged
identically, whatever their rows from stop onward hold. -/
theorem palette_independent_of_rows_from_stop (im : TaggedImage)
    (pal1 pal2 : List Int) (s t : Nat) (hm : im.mode = "P")
    (hp : im.palette = some pal1) (hl1 : pal1.length = 768)
    (hl2 : pal2.length = 768) (he : im.extrema = (s, t))
    (hagree : pal1.take (3 * t) = pal2.take (3 * t)) :
    _palette_is_grayscale im =
      _palette_is_grayscale { im with palette := some pal2 } := by
  rw [palette_gray_run im pal1 s t hm hp hl1 he,
    palette_gray_run { im with palette := some pal2 } pal2 s t hm rfl hl2 he,
    paletteRows_take t pal1, paletteRows_take t pal2, hagree]

/-- Witness for C10: a palette gray on the used rows and a palette that
additionally carries the non-gray row (1, 2, 3) exactly at the maximum used
index 12 are judged identically (and the first is judged grayscale, so the
second is as well, the non-gray entry at the maximum index notwithstanding). -/
theorem palette_independent_of_rows_from_stop_witness :
    _palette_is_grayscale ⟨"P", [2, 1], [10, 11], some (List.replicate 768 7),
        (10, 12), false, ""⟩ =
      _palette_is_grayscale ⟨"P", [2, 1], [10, 11],
        some (List.replicate 36 (7 : Int) ++ [1, 2, 3] ++ List.replicate 729 7),
        (10, 12), false, ""⟩ :=
  palette_independent_of_rows_from_stop _ _ _ 10 12 rfl rfl
    (by rw [List.length_replicate])
    (by simp only [List.length_append, List.length_replicate, List.length_cons,
      List.length_nil])
    rfl (by decide)

/-- Claim C6, amended: the underlying file handle is closed exactly when a
handle is present and the conversion succeeds.  The close statement of
pil_to_ndarray sits after the conversion with no finally-equivalent
construct, so an exceptional exit leaves the handle open. -/
theorem fp_closed_iff_success (im : TaggedImage) (dtype : Option Dtype) :
    (pil_to_ndarray im dtype).2 =
      (im.fp && exceptIsOk (pil_to_ndarray im dtype).1) := by
  unfold pil_to_ndarray
  cases h : pil_branch im dtype with
  | error e => simp [exceptIsOk]
  | ok p => cases p with | mk x dt => simp [exceptIsOk]

/-- Counterexample to claim C6 as stated: a 16-bit image whose raw buffer
disagrees with its size (three pixels against a 2-by-2 size) makes the
reshape raise after the handle was captured; the conversion exits
exceptionally and the open handle (fp = true) is never closed (the second
component, whether the close ran, is false). -/
theorem fp_not_closed_on_error :
    pil_to_ndarray ⟨"I;16", [2, 2], [0, 0, 0], none, (0, 0), true, ""⟩ none =
      (Except.error Err.reshapeMismatch, false) := by rfl

/-- Claim C8: the format hint parameter influences neither the selected
pixel mode nor the packed image: ndarray_to_pil gives identical results for
any two hints (the source tests the hint against the two tiff spellings and
then does nothing with it), and the image imsave passes to the codec save
call is likewise independent of the hint (imsave hard-codes format_str=None
in its ndarray_to_pil call). -/
theorem format_str_never_influences_output (arr : NDArray)
    (fs1 fs2 : Option String) :
    ndarray_to_pil arr fs1 = ndarray_to_pil arr fs2 ∧
    ∀ b : Bool, (imsave b arr fs1).map Prod.fst = (imsave b arr fs2).map Prod.fst := by
  refine ⟨rfl, fun b => ?_⟩
  cases h : ndarray_to_pil arr none <;> simp [imsave, h, Except.map]

/-- Claim C9: whenever the pixel access of the freshly opened image raises a
read failure, imread raises the ValueError carrying the file name and the
documentation hint to the caller (no array is produced, nothing is silently
recovered, and the handle is untouched). -/
theorem imread_unreadable_error (fname : String) (im : TaggedImage)
    (dtype : Option Dtype) :
    imread fname im true dtype =
      (Except.error (Err.unreadable fname pilSite), false) := rfl

/-- Claim C5, amended: ndarray_to_pil fails with the InvalidShape condition
(either shape-validation error, raised before any output is constructed)
whenever the input shape, after np.squeeze removes all length-1 axes (not
only trailing ones), is neither 2-D nor 3-D, or is 3-D with a last axis
other than 3 or 4. -/
theorem invalid_shape_after_full_squeeze (arr : NDArray)
    (format_str : Option String) (h : specBadShape (squeezeShape arr.shape)) :
    isInvalidShapeError (ndarray_to_pil arr format_str) = true := by
  unfold ndarray_to_pil
  dsimp only [squeeze]
  rcases h with hlen | ⟨h3, hlast⟩
  · rw [if_pos hlen]
    rfl
  · rw [if_neg (show ¬¬((squeezeShape arr.shape).length = 2 ∨
        (squeezeShape arr.shape).length = 3) by simp [h3]),
      if_pos ⟨h3, hlast⟩]
    rfl

/-- Witness for C5 at a 3-D shape with a 2-element last axis. -/
theorem invalid_shape_after_full_squeeze_witness :
    isInvalidShapeError (ndarray_to_pil ⟨[2, 2, 2], 'i', 8,
      List.replicate 8 (Scalar.i 0)⟩ none) = true :=
  invalid_shape_after_full_squeeze _ none (by decide)

/-- Counterexample to claim C5 as stated: the shape [1, 2, 2, 1] squeezes
under the claim (trailing length-1 axes only) to [1, 2, 2], a 3-D shape with
last axis 2, so the claim demands an InvalidShape failure; the source
squeezes away all length-1 axes, reaches the 2-D shape [2, 2], and succeeds. -/
theorem four_dim_with_unit_axes_accepted :
    exceptIsOk (ndarray_to_pil ⟨[1, 2, 2, 1], 'i', 8,
      [Scalar.i 0, Scalar.i 1, Scalar.i 2, Scalar.i 3]⟩ none) = true := by rfl

theorem squeezeShape_pair (h w : Nat) (hh : h ≠ 1) (hw : w ≠ 1) :
    squeezeShape [h, w] = [h, w] := by
  have hb1 : (h != 1) = true := bne_iff_ne.mpr hh
  have hb2 : (w != 1) = true := bne_iff_ne.mpr hw
  simp [squeezeShape, List.filter, hb1, hb2]

theorem ndarray_to_pil_len2 (arr0 : NDArray) (fs : Option String)
    (h : (squeezeShape arr0.shape).length = 2) :
    ndarray_to_pil arr0 fs =
      (modeSelect (squeeze arr0)).map fun (a, mode, mode_base) =>
        packImage a mode mode_base := by
  unfold ndarray_to_pil
  dsimp only [squeeze]
  rw [if_neg (show ¬¬((squeezeShape arr0.shape).length = 2 ∨
      (squeezeShape arr0.shape).length = 3) by simp [h]),
    if_neg (show ¬((squeezeShape arr0.shape).length = 3 ∧
      ¬((squeezeShape arr0.shape).getLast? = some 3 ∨
        (squeezeShape arr0.shape).getLast? = some 4)) by simp [h])]

theorem modeSelect_float (arr : NDArray) (h2 : arr.shape.length = 2)
    (hk : arr.kind = 'f') :
    modeSelect arr = Except.ok (img_as_uint arr, "I;16", "I") := by
  unfold modeSelect
  rw [if_neg (show ¬(arr.shape.length = 3) by simp [h2]), if_pos hk]

theorem modeSelect_u8 (arr : NDArray) (h2 : arr.shape.length = 2)
    (hk : ¬(arr.kind = 'f')) (hne : arr.data ≠ [])
    (hbound : ∀ s ∈ arr.data, 0 ≤ scalarVal s ∧ scalarVal s < 256) :
    modeSelect arr = Except.ok (astype_u8 arr, "L", "L") := by
  have hvne : arr.data.map scalarVal ≠ [] := by simpa using hne
  obtain ⟨mx, hmx⟩ : ∃ mx, foldMax (arr.data.map scalarVal) = some mx := by
    cases h : foldMax (arr.data.map scalarVal) with
    | none => exact absurd ((foldMax_eq_none_iff _).mp h) hvne
    | some m => exact ⟨m, rfl⟩
  obtain ⟨mn, hmn⟩ : ∃ mn, foldMin (arr.data.map scalarVal) = some mn := by
    cases h : foldMin (arr.data.map scalarVal) with
    | none => exact absurd ((foldMin_eq_none_iff _).mp h) hvne
    | some m => exact ⟨m, rfl⟩
  have hmxlt : mx < 256 := by
    obtain ⟨hmem, -⟩ := foldMax_spec hmx
    obtain ⟨s, hs, rfl⟩ := List.mem_map.mp hmem
    exact (hbound s hs).2
  have hmnge : (0 : ℚ) ≤ mn := by
    obtain ⟨hmem, -⟩ := foldMin_spec hmn
    obtain ⟨s, hs, rfl⟩ := List.mem_map.mp hmem
    exact (hbound s hs).1
  unfold modeSelect arrMax arrMin
  rw [if_neg (show ¬(arr.shape.length = 3) by simp [h2]), if_neg hk, hmx, hmn]
  dsimp only
  rw [if_pos ⟨hmxlt, hmnge⟩]

theorem modeSelect_u16 (arr : NDArray) (h2 : arr.shape.length = 2)
    (hk : ¬(arr.kind = 'f')) (hne : arr.data ≠ [])
    (hbound : ∀ s ∈ arr.data, 256 ≤ scalarVal s ∧ scalarVal s < 65536) :
    modeSelect arr = Except.ok (astype_u16 arr, "I;16", "I") := by
  have hvne : arr.data.map scalarVal ≠ [] := by simpa using hne
  obtain ⟨mx, hmx⟩ : ∃ mx, foldMax (arr.data.map scalarVal) = some mx := by
    cases h : foldMax (arr.data.map scalarVal) with
    | none => exact absurd ((foldMax_eq_none_iff _).mp h) hvne
    | some m => exact ⟨m, rfl⟩
  obtain ⟨mn, hmn⟩ : ∃ mn, foldMin (arr.data.map scalarVal) = some mn := by
    cases h : foldMin (arr.data.map scalarVal) with
    | none => exact absurd ((foldMin_eq_none_iff _).mp h) hvne
    | some m => exact ⟨m, rfl⟩
  have hmxge : (256 : ℚ) ≤ mx := by
    obtain ⟨hmem, -⟩ := foldMax_spec hmx
    obtain ⟨s, hs, rfl⟩ := List.mem_map.mp hmem
    exact (hbound s hs).1
  have hmxlt : mx < 65536 := by
    obtain ⟨hmem, -⟩ := foldMax_spec hmx
    obtain ⟨s, hs, rfl⟩ := List.mem_map.mp hmem
    exact (hbound s hs).2
  have hmnge : (0 : ℚ) ≤ mn := by
    obtain ⟨hmem, -⟩ := foldMin_spec hmn
    obtain ⟨s, hs, rfl⟩ := List.mem_map.mp hmem
    exact le_trans (by norm_num) (hbound s hs).1
  unfold modeSelect arrMax arrMin
  rw [if_neg (show ¬(arr.shape.length = 3) by simp [h2]), if_neg hk, hmx, hmn]
  dsimp only
  rw [if_neg (show ¬(mx < 256 ∧ (0 : ℚ) ≤ mn) by
      rintro ⟨hc, -⟩; exact absurd hc (not_lt.mpr (le_trans (by norm_num) hmxge))),
    if_pos ⟨hmxlt, hmnge⟩]


theorem tostring_u1 (a : NDArray) (hk : a.kind = 'u') (hi : a.itemsize = 1) :
    tostring a = (a.data.map scalarInt).flatMap bytesU8 := by
  unfold tostring
  rw [hk, hi, show encodeBytes 'u' 1 = bytesU8 from rfl, List.flatMap_map]

theorem tostring_u2 (a : NDArray) (hk : a.kind = 'u') (hi : a.itemsize = 2) :
    tostring a = (a.data.map scalarInt).flatMap bytesU16LE := by
  unfold tostring
  rw [hk, hi, show encodeBytes 'u' 2 = bytesU16LE from rfl, List.flatMap_map]

theorem rawDecode_L_tostring (a : NDArray) (hk : a.kind = 'u') (hi : a.itemsize = 1) :
    rawDecode "L" (tostring a) =
      (a.data.map scalarInt).map fun v => Int.emod v 256 := by
  unfold rawDecode
  rw [if_neg (by decide), if_neg (by decide), if_neg (by decide),
    tostring_u1 a hk hi, mapOfNat_flatMapU8]

theorem rawDecode_I16_tostring (a : NDArray) (hk : a.kind = 'u') (hi : a.itemsize = 2) :
    rawDecode "I;16" (tostring a) =
      (a.data.map scalarInt).map fun v => Int.emod v 65536 := by
  unfold rawDecode
  rw [if_pos rfl, tostring_u2 a hk hi, decodeU16LE_flatMap]

theorem pil_to_ndarray_plain (im : TaggedImage) (dt : Option Dtype)
    (hP : ¬(im.mode = "P")) (h1 : ¬(im.mode = "1"))
    (hs : ¬(strStarts im.mode "I;16" = true))
    (hA : ¬(strHasChar im.mode 'A' = true)) :
    pil_to_ndarray im dt = (Except.ok (castArray dt (npArrayOfImage im)), im.fp) := by
  unfold pil_to_ndarray pil_branch
  dsimp only
  rw [if_neg hP, if_neg h1, if_neg hs, if_neg hA]

theorem npArrayOfImage_L (im : TaggedImage) (hm : im.mode = "L") :
    npArrayOfImage im = ⟨im.size.reverse, 'u', 1, im.data.map Scalar.i⟩ := by
  unfold npArrayOfImage
  rw [hm]
  rw [if_neg (by decide), if_neg (by decide), if_neg (by decide)]

theorem npArrayOfImage_I (im : TaggedImage) (hm : im.mode = "I") :
    npArrayOfImage im = ⟨im.size.reverse, 'i', 4, im.data.map Scalar.i⟩ := by
  unfold npArrayOfImage
  rw [hm]
  rw [if_neg (by decide), if_neg (by decide), if_pos rfl]

theorem packImage_mode (a : NDArray) (m mb : String) : (packImage a m mb).mode = mb := rfl

theorem map_u8_chain : ∀ (l : List Scalar),
    (∀ s ∈ l, ∃ v : Int, s = Scalar.i v ∧ 0 ≤ v ∧ v < 256) →
    ((((l.map fun s => Scalar.i (Int.emod (scalarInt s) 256)).map scalarInt).map
      fun v => Int.emod v 256).map Scalar.i) = l
  | [], _ => rfl
  | s :: rest, hv => by
    obtain ⟨v, rfl, hv0, hv1⟩ := hv s (List.mem_cons_self s rest)
    have ih := map_u8_chain rest (fun x hx => hv x (List.mem_cons_of_mem _ hx))
    simp only [List.map_cons]
    rw [ih]
    show Scalar.i (Int.emod (Int.emod v 256) 256) :: rest = Scalar.i v :: rest
    have hvv : v % 256 % 256 = v := by omega
    exact congrArg (fun x => Scalar.i x :: rest) hvv

theorem map_u16_chain : ∀ (l : List Scalar),
    (∀ s ∈ l, ∃ v : Int, s = Scalar.i v ∧ 0 ≤ v ∧ v < 65536) →
    ((((l.map fun s => Scalar.i (Int.emod (scalarInt s) 65536)).map scalarInt).map
      fun v => Int.emod v 65536).map Scalar.i) = l
  | [], _ => rfl
  | s :: rest, hv => by
    obtain ⟨v, rfl, hv0, hv1⟩ := hv s (List.mem_cons_self s rest)
    have ih := map_u16_chain rest (fun x hx => hv x (List.mem_cons_of_mem _ hx))
    simp only [List.map_cons]
    rw [ih]
    show Scalar.i (Int.emod (Int.emod v 65536) 65536) :: rest = Scalar.i v :: rest
    have hvv : v % 65536 % 65536 = v := by omega
    exact congrArg (fun x => Scalar.i x :: rest) hvv

/-- Claim C2, amended: for every 2-D integer-kind array of shape (h, w) with
h and w at least 2 (np.squeeze drops length-1 axes, so a 1-pixel-thin or
empty 2-D array never reaches the 8-bit path) whose values all lie in
[0, 256), packing with ndarray_to_pil and reading back with pil_to_ndarray
returns an array with the same shape and exactly the same values. -/
theorem roundtrip_uint8_exact (h w isz : Nat) (kind : Char) (data : List Scalar)
    (hh : 2 ≤ h) (hw : 2 ≤ w) (hk : ¬(kind = 'f')) (hlen : data.length = h * w)
    (hvals : ∀ s ∈ data, ∃ v : Int, s = Scalar.i v ∧ 0 ≤ v ∧ v < 256) :
    ∃ rt, roundTrip ⟨[h, w], kind, isz, data⟩ = Except.ok rt ∧
      rt.shape = [h, w] ∧ rt.data = data := by
  have hh1 : h ≠ 1 := by omega
  have hw1 : w ≠ 1 := by omega
  have h4 : 4 ≤ h * w := Nat.mul_le_mul hh hw
  have hne : data ≠ [] := by
    intro hd
    rw [hd] at hlen
    simp at hlen
    omega
  have hbound : ∀ s ∈ (⟨[h, w], kind, isz, data⟩ : NDArray).data,
      0 ≤ scalarVal s ∧ scalarVal s < 256 := by
    intro s hs
    obtain ⟨v, rfl, hv0, hv1⟩ := hvals s hs
    simp only [scalarVal]
    exact ⟨by exact_mod_cast hv0, by exact_mod_cast hv1⟩
  have hsq : squeeze ⟨[h, w], kind, isz, data⟩ = ⟨[h, w], kind, isz, data⟩ := by
    show NDArray.mk (squeezeShape [h, w]) kind isz data = _
    rw [squeezeShape_pair h w hh1 hw1]
  have hsel := modeSelect_u8 ⟨[h, w], kind, isz, data⟩ rfl hk hne hbound
  have hpil := ndarray_to_pil_len2 ⟨[h, w], kind, isz, data⟩ none
    (by rw [show (⟨[h, w], kind, isz, data⟩ : NDArray).shape = [h, w] from rfl,
      squeezeShape_pair h w hh1 hw1]; rfl)
  have hdata8 : (rawDecode "L" (tostring (astype_u8 ⟨[h, w], kind, isz, data⟩))).map
      Scalar.i = data := by
    rw [rawDecode_L_tostring _ rfl rfl]
    show (((data.map fun s => Scalar.i (Int.emod (scalarInt s) 256)).map
      scalarInt).map fun v => Int.emod v 256).map Scalar.i = data
    exact map_u8_chain data hvals
  refine ⟨(⟨[h, w], 'u', 1, data⟩ : NDArray), ?_, rfl, rfl⟩
  unfold roundTrip
  rw [hpil, hsq, hsel]
  show (pil_to_ndarray (packImage (astype_u8 ⟨[h, w], kind, isz, data⟩) "L" "L")
    none).1 = _
  rw [pil_to_ndarray_plain _ none
    (by rw [packImage_mode]; decide)
    (by rw [packImage_mode]; decide)
    (by rw [packImage_mode]; decide)
    (by rw [packImage_mode]; decide)]
  show Except.ok (npArrayOfImage (packImage (astype_u8 ⟨[h, w], kind, isz, data⟩)
    "L" "L")) = _
  rw [npArrayOfImage_L _ rfl]
  show Except.ok (⟨[w, h].reverse, 'u', 1,
    (rawDecode "L" (tostring (astype_u8 ⟨[h, w], kind, isz, data⟩))).map Scalar.i⟩ :
    NDArray) = _
  rw [hdata8]
  rfl

/-- Witness for C2 at a concrete 2-by-2 byte-range array. -/
theorem roundtrip_uint8_exact_witness :
    ∃ rt, roundTrip ⟨[2, 2], 'i', 8,
        [Scalar.i 5, Scalar.i 7, Scalar.i 0, Scalar.i 255]⟩ = Except.ok rt ∧
      rt.shape = [2, 2] ∧ rt.data = [Scalar.i 5, Scalar.i 7, Scalar.i 0, Scalar.i 255] :=
  roundtrip_uint8_exact 2 2 8 'i' _ (by decide) (by decide) (by decide) rfl
    (by intro s hs; fin_cases hs <;> exact ⟨_, rfl, by decide, by decide⟩)

/-- Counterexample to claim C2 as stated: the 2-D array of shape (1, 2) with
values 5 and 7 in [0, 256) does not round trip; np.squeeze drops the
length-1 axis, ndarray_to_pil sees a 1-D shape and raises the invalid-shape
ValueError, so no array equal to the input (or any array) is returned. -/
theorem roundtrip_uint8_fails_on_row_vector :
    roundTrip ⟨[1, 2], 'i', 8, [Scalar.i 5, Scalar.i 7]⟩ =
      Except.error (Err.invalidShape [2]) := by rfl

/-- Claim C3, amended: for every 2-D integer-kind array of shape (h, w) with
h and w at least 2 whose values all lie in [256, 65536), packing with
ndarray_to_pil (which selects the unsigned 16-bit storage mode) and reading
back with pil_to_ndarray returns an array with the same shape and exactly
the same values. -/
theorem roundtrip_uint16_exact (h w isz : Nat) (kind : Char) (data : List Scalar)
    (hh : 2 ≤ h) (hw : 2 ≤ w) (hk : ¬(kind = 'f')) (hlen : data.length = h * w)
    (hvals : ∀ s ∈ data, ∃ v : Int, s = Scalar.i v ∧ 256 ≤ v ∧ v < 65536) :
    ∃ rt, roundTrip ⟨[h, w], kind, isz, data⟩ = Except.ok rt ∧
      rt.shape = [h, w] ∧ rt.data = data := by
  have hh1 : h ≠ 1 := by omega
  have hw1 : w ≠ 1 := by omega
  have h4 : 4 ≤ h * w := Nat.mul_le_mul hh hw
  have hne : data ≠ [] := by
    intro hd
    rw [hd] at hlen
    simp at hlen
    omega
  have hbound : ∀ s ∈ (⟨[h, w], kind, isz, data⟩ : NDArray).data,
      256 ≤ scalarVal s ∧ scalarVal s < 65536 := by
    intro s hs
    obtain ⟨v, rfl, hv0, hv1⟩ := hvals s hs
    simp only [scalarVal]
    exact ⟨by exact_mod_cast hv0, by exact_mod_cast hv1⟩
  have hsq : squeeze ⟨[h, w], kind, isz, data⟩ = ⟨[h, w], kind, isz, data⟩ := by
    show NDArray.mk (squeezeShape [h, w]) kind isz data = _
    rw [squeezeShape_pair h w hh1 hw1]
  have hsel := modeSelect_u16 ⟨[h, w], kind, isz, data⟩ rfl hk hne hbound
  have hpil := ndarray_to_pil_len2 ⟨[h, w], kind, isz, data⟩ none
    (by rw [show (⟨[h, w], kind, isz, data⟩ : NDArray).shape = [h, w] from rfl,
      squeezeShape_pair h w hh1 hw1]; rfl)
  have hdata16 : (rawDecode "I;16" (tostring (astype_u16 ⟨[h, w], kind, isz,
      data⟩))).map Scalar.i = data := by
    rw [rawDecode_I16_tostring _ rfl rfl]
    show (((data.map fun s => Scalar.i (Int.emod (scalarInt s) 65536)).map
      scalarInt).map fun v => Int.emod v 65536).map Scalar.i = data
    exact map_u16_chain data fun s hs => by
      obtain ⟨v, rfl, hv0, hv1⟩ := hvals s hs
      exact ⟨v, rfl, by omega, hv1⟩
  refine ⟨(⟨[h, w], 'i', 4, data⟩ : NDArray), ?_, rfl, rfl⟩
  unfold roundTrip
  rw [hpil, hsq, hsel]
  show (pil_to_ndarray (packImage (astype_u16 ⟨[h, w], kind, isz, data⟩)
    "I;16" "I") none).1 = _
  rw [pil_to_ndarray_plain _ none
    (by rw [packImage_mode]; decide)
    (by rw [packImage_mode]; decide)
    (by rw [packImage_mode]; decide)
    (by rw [packImage_mode]; decide)]
  show Except.ok (npArrayOfImage (packImage (astype_u16 ⟨[h, w], kind, isz, data⟩)
    "I;16" "I")) = _
  rw [npArrayOfImage_I _ rfl]
  show Except.ok (⟨[w, h].reverse, 'i', 4,
    (rawDecode "I;16" (tostring (astype_u16 ⟨[h, w], kind, isz, data⟩))).map
      Scalar.i⟩ : NDArray) = _
  rw [hdata16]
  rfl

/-- Witness for C3 at a concrete 2-by-2 array of 16-bit values. -/
theorem roundtrip_uint16_exact_witness :
    ∃ rt, roundTrip ⟨[2, 2], 'i', 8,
        [Scalar.i 256, Scalar.i 700, Scalar.i 65535, Scalar.i 300]⟩ = Except.ok rt ∧
      rt.shape = [2, 2] ∧
      rt.data = [Scalar.i 256, Scalar.i 700, Scalar.i 65535, Scalar.i 300] :=
  roundtrip_uint16_exact 2 2 8 'i' _ (by decide) (by decide) (by decide) rfl
    (by intro s hs; fin_cases hs <;> exact ⟨_, rfl, by decide, by decide⟩)

/-- Counterexample to claim C3 as stated: the 2-D array of shape (1, 1)
holding the single value 300 in [256, 65536) does not round trip; np.squeeze
drops both length-1 axes, ndarray_to_pil sees a 0-D shape and raises the
invalid-shape ValueError, so nothing is returned. -/
theorem roundtrip_uint16_fails_on_single_pixel :
    roundTrip ⟨[1, 1], 'i', 8, [Scalar.i 300]⟩ =
      Except.error (Err.invalidShape []) := by rfl

theorem modeSelect_float_never_L (arr : NDArray) (hk : arr.kind = 'f')
    (x : NDArray × String × String) (h : modeSelect arr = Except.ok x) :
    x.2.1 ≠ "L" ∧ x.2.2 ≠ "L" := by
  unfold modeSelect at h
  by_cases h3 : arr.shape.length = 3
  · rw [if_pos h3] at h
    dsimp only at h
    cases h
    constructor
    · show (if arr.shape.getLast? = some 3 then "RGB" else "RGBA") ≠ "L"
      split
      · decide
      · decide
    · show (if arr.shape.getLast? = some 3 then "RGB" else "RGBA") ≠ "L"
      split
      · decide
      · decide
  · rw [if_neg h3, if_pos hk] at h
    cases h
    exact ⟨show "I;16" ≠ "L" by decide, show "I" ≠ "L" by decide⟩

theorem ndarray_to_pil_float_never_L (arr : NDArray) (fs : Option String)
    (img : TaggedImage) (hk : arr.kind = 'f')
    (h : ndarray_to_pil arr fs = Except.ok img) :
    img.rawmode ≠ "L" ∧ img.mode ≠ "L" := by
  unfold ndarray_to_pil at h
  dsimp only at h
  by_cases hc1 : ¬((squeeze arr).shape.length = 2 ∨ (squeeze arr).shape.length = 3)
  · rw [if_pos hc1] at h
    exact Except.noConfusion h
  · rw [if_neg hc1] at h
    by_cases hc2 : (squeeze arr).shape.length = 3 ∧
        ¬((squeeze arr).shape.getLast? = some 3 ∨
          (squeeze arr).shape.getLast? = some 4)
    · rw [if_pos hc2] at h
      exact Except.noConfusion h
    · rw [if_neg hc2] at h
      cases hsel : modeSelect (squeeze arr) with
      | error e =>
        rw [hsel] at h
        exact absurd h (by simp [Except.map])
      | ok x =>
        rw [hsel] at h
        obtain ⟨a, m, mb⟩ := x
        simp only [Except.map] at h
        have hL := modeSelect_float_never_L (squeeze arr) hk (a, m, mb) hsel
        cases h
        exact ⟨hL.1, hL.2⟩

/-- Claim C1, amended: a 2-D floating-point array selects the 16-bit integer
storage mode I;16 with base mode I through the unsigned-16-bit conversion
policy whenever neither dimension equals 1 (np.squeeze drops length-1 axes
first, so thin 2-D floating arrays are instead rejected as invalid shapes,
as the counterexample shows); and on no floating-point input, whatever its
shape and however small the scaled values, does ndarray_to_pil ever produce
the 8-bit luminance mode. -/
theorem float2d_selects_uint16_mode :
    (∀ (h w isz : Nat) (data : List Scalar) (fs : Option String),
      h ≠ 1 → w ≠ 1 →
      ∃ img, ndarray_to_pil ⟨[h, w], 'f', isz, data⟩ fs = Except.ok img ∧
        img.rawmode = "I;16" ∧ img.mode = "I" ∧
        img.data = (img_as_uint ⟨[h, w], 'f', isz, data⟩).data.map scalarInt) ∧
    (∀ (arr : NDArray) (fs : Option String) (img : TaggedImage), arr.kind = 'f' →
      ndarray_to_pil arr fs = Except.ok img →
      img.rawmode ≠ "L" ∧ img.mode ≠ "L") := by
  constructor
  · intro h w isz data fs hh1 hw1
    have hsq : squeeze ⟨[h, w], 'f', isz, data⟩ = ⟨[h, w], 'f', isz, data⟩ := by
      show NDArray.mk (squeezeShape [h, w]) 'f' isz data = _
      rw [squeezeShape_pair h w hh1 hw1]
    have hpil := ndarray_to_pil_len2 ⟨[h, w], 'f', isz, data⟩ fs
      (by rw [show (⟨[h, w], 'f', isz, data⟩ : NDArray).shape = [h, w] from rfl,
        squeezeShape_pair h w hh1 hw1]; rfl)
    have hsel := modeSelect_float ⟨[h, w], 'f', isz, data⟩ rfl rfl
    refine ⟨packImage (img_as_uint ⟨[h, w], 'f', isz, data⟩) "I;16" "I",
      ?_, rfl, rfl, ?_⟩
    · rw [hpil, hsq, hsel]
      rfl
    · show rawDecode "I;16" (tostring (img_as_uint ⟨[h, w], 'f', isz, data⟩)) = _
      rw [rawDecode_I16_tostring _ rfl rfl]
      have hmod : ∀ v ∈ (img_as_uint (⟨[h, w], 'f', isz, data⟩ : NDArray)).data.map
          scalarInt, Int.emod v 65536 = v := by
        intro v hv
        rw [List.mem_map] at hv
        obtain ⟨s, hs, rfl⟩ := hv
        rw [show (img_as_uint (⟨[h, w], 'f', isz, data⟩ : NDArray)).data =
          data.map (fun s => Scalar.i (min 65535 (max 0 ⌊scalarVal s * 65535 + 1/2⌋)))
          from rfl, List.mem_map] at hs
        obtain ⟨s0, hs0, rfl⟩ := hs
        show Int.emod (min 65535 (max 0 ⌊scalarVal s0 * 65535 + 1/2⌋)) 65536 = _
        have hx : (min 65535 (max 0 ⌊scalarVal s0 * 65535 + 1/2⌋)) % 65536 =
            min 65535 (max 0 ⌊scalarVal s0 * 65535 + 1/2⌋) := by omega
        exact hx
      calc ((img_as_uint (⟨[h, w], 'f', isz, data⟩ : NDArray)).data.map
            scalarInt).map (fun v => Int.emod v 65536)
          = ((img_as_uint (⟨[h, w], 'f', isz, data⟩ : NDArray)).data.map
            scalarInt).map (fun v => v) := List.map_congr_left hmod
        _ = _ := by rw [List.map_id']
  · exact fun arr fs img hk h => ndarray_to_pil_float_never_L arr fs img hk h

/-- Witness for C1 at a concrete 2-by-2 floating array of halves, whose
scaled values would also have fit in 8 bits. -/
theorem float2d_selects_uint16_mode_witness :
    (∃ img, ndarray_to_pil ⟨[2, 2], 'f', 8,
        [Scalar.f (1/2), Scalar.f (1/2), Scalar.f (1/2), Scalar.f (1/2)]⟩ none =
        Except.ok img ∧ img.rawmode = "I;16" ∧ img.mode = "I" ∧
        img.data = (img_as_uint ⟨[2, 2], 'f', 8,
          [Scalar.f (1/2), Scalar.f (1/2), Scalar.f (1/2),
            Scalar.f (1/2)]⟩).data.map scalarInt) ∧
    (∃ img, ndarray_to_pil ⟨[2, 3], 'f', 8,
        [Scalar.f 0, Scalar.f 0, Scalar.f 0, Scalar.f 0, Scalar.f 0, Scalar.f 0]⟩
          none = Except.ok img ∧ img.rawmode ≠ "L" ∧ img.mode ≠ "L") := by
  constructor
  · exact float2d_selects_uint16_mode.1 2 2 8 _ none (by decide) (by decide)
  · obtain ⟨img, himg, -, -, -⟩ :=
      float2d_selects_uint16_mode.1 2 3 8
        [Scalar.f 0, Scalar.f 0, Scalar.f 0, Scalar.f 0, Scalar.f 0, Scalar.f 0]
        none (by decide) (by decide)
    exact ⟨img, himg, (float2d_selects_uint16_mode.2 _ none img rfl himg).1,
      (float2d_selects_uint16_mode.2 _ none img rfl himg).2⟩

/-- Counterexample to claim C1 as stated: the 2-D floating array of shape
(1, 2) selects no mode at all; np.squeeze reduces it to 1-D and
ndarray_to_pil raises the invalid-shape ValueError. -/
theorem float2d_row_vector_rejected :
    ndarray_to_pil ⟨[1, 2], 'f', 8, [Scalar.f 0, Scalar.f 0]⟩ none =
      Except.error (Err.invalidShape [2]) := by rfl

theorem cast_u16_fixed : ∀ (l : List Int),
    ((l.map fun v => Int.emod v 65536).map Scalar.i).map (castScalar Dtype.u16) =
      (l.map fun v => Int.emod v 65536).map Scalar.i
  | [] => rfl
  | v :: rest => by
    have ih := cast_u16_fixed rest
    simp only [List.map_cons]
    rw [ih]
    show Scalar.i (Int.emod (Int.emod v 65536) 65536) ::
        ((rest.map fun v => Int.emod v 65536).map Scalar.i) =
      Scalar.i (Int.emod v 65536) :: ((rest.map fun v => Int.emod v 65536).map Scalar.i)
    have hvv : v % 65536 % 65536 = v % 65536 := by omega
    exact congrArg
      (fun x => Scalar.i x :: ((rest.map fun v => Int.emod v 65536).map Scalar.i)) hvv

theorem imTostring_BE (im : TaggedImage) (hB : strEnds im.mode "B" = true) :
    imTostring im = im.data.flatMap bytesU16BE := by
  unfold imTostring
  have hfn : (fun v : Int => if strEnds im.mode "B" = true then bytesU16BE v
      else bytesU16LE v) = bytesU16BE := by
    funext v
    rw [if_pos hB]
  rw [hfn]

theorem imTostring_LE (im : TaggedImage) (hB : ¬(strEnds im.mode "B" = true)) :
    imTostring im = im.data.flatMap bytesU16LE := by
  unfold imTostring
  have hfn : (fun v : Int => if strEnds im.mode "B" = true then bytesU16BE v
      else bytesU16LE v) = bytesU16LE := by
    funext v
    rw [if_neg hB]
  rw [hfn]

/-- Claim C7: on every tagged image whose mode belongs to the 16-bit I;16
family, pil_to_ndarray reads the raw bytes delivered by tostring as unsigned
16-bit integers, big-endian exactly when the mode tag ends with the suffix B
and little-endian otherwise, and reshapes them to (height, width) — the
reverse of the stored (width, height) size; the dtype the caller passed is
ignored on this path. -/
theorem i16_modes_decoded_by_declared_endianness (im : TaggedImage)
    (dt : Option Dtype) (w h : Nat) (hst : strStarts im.mode "I;16" = true)
    (hsz : im.size = [w, h]) (hlen : im.data.length = w * h) :
    (pil_to_ndarray im dt).1 = Except.ok ⟨[h, w], 'u', 2,
      (if strEnds im.mode "B" then decodeU16BE (imTostring im)
        else decodeU16LE (imTostring im)).map Scalar.i⟩ := by
  have hmodeP : ¬(im.mode = "P") := by
    intro hc
    rw [hc] at hst
    exact absurd hst (by decide)
  have hmode1 : ¬(im.mode = "1") := by
    intro hc
    rw [hc] at hst
    exact absurd hst (by decide)
  have hprod : im.size.prod = w * h := by
    rw [hsz]
    simp
  have hvals : (if strEnds im.mode "B" = true then decodeU16BE (imTostring im)
      else decodeU16LE (imTostring im)) = im.data.map fun v => Int.emod v 65536 := by
    by_cases hB : strEnds im.mode "B" = true
    · rw [if_pos hB, imTostring_BE im hB, decodeU16BE_flatMap]
    · rw [if_neg hB, imTostring_LE im hB, decodeU16LE_flatMap]
  unfold pil_to_ndarray pil_branch
  dsimp only
  rw [if_neg hmodeP, if_neg hmode1, if_pos hst, hvals,
    if_pos (show (im.data.map fun v => Int.emod v 65536).length = im.size.prod by
      rw [List.length_map, hlen, hprod])]
  show Except.ok (castArray (some Dtype.u16) ⟨im.size.reverse, 'u', 2,
    (im.data.map fun v => Int.emod v 65536).map Scalar.i⟩) = _
  rw [hsz]
  show Except.ok (⟨[w, h].reverse, 'u', 2,
    (((im.data.map fun v => Int.emod v 65536).map Scalar.i).map
      (castScalar Dtype.u16))⟩ : NDArray) = _
  rw [cast_u16_fixed im.data]
  rfl

/-- Witness for C7 at a concrete big-endian 16-bit image of size (2, 1)
holding the pixel values 256 and 1. -/
theorem i16_modes_decoded_by_declared_endianness_witness :
    (pil_to_ndarray ⟨"I;16B", [2, 1], [256, 1], none, (0, 0), false, ""⟩ none).1 =
      Except.ok ⟨[1, 2], 'u', 2,
        (if strEnds "I;16B" "B" then
          decodeU16BE (imTostring ⟨"I;16B", [2, 1], [256, 1], none, (0, 0), false, ""⟩)
        else
          decodeU16LE (imTostring ⟨"I;16B", [2, 1], [256, 1], none, (0, 0), false,
            ""⟩)).map Scalar.i⟩ :=
  i16_modes_decoded_by_declared_endianness _ none 2 1 (by decide) rfl rfl
